import Mathlib

/-!
Verification of the custom-protocol core of `desktop/src-tauri/src/custom_protocol.rs`:
the URL router (`UrlParser`), the two command decoders (`OpenWorkspaceMsg`,
`ImportWorkspaceMsg`) and the command handlers (`OpenHandler`, `ImportHandler`).

The router and decoder logic is translated from the Rust source. Two layers the
source delegates to external crates are modelled from the specification's
description of their interface:
* `urlParse` models `url::Url::parse` as described in §4.1 of the spec
  (scheme `://` authority, query is everything after `?`, absent authority is
  reported as no host, unparsable input is an error);
* the query-string layer (`parseQueryPairs`, `qsToMap`) models
  `serde_qs::from_str` as described in §4.2/§4.3 of the spec
  (ampersand-delimited `key=value` pairs, percent-decoding, duplicate keys
  resolved last-write-wins, deserialization of a struct reads each field by its
  wire name and ignores unknown keys).
-/

set_option autoImplicit false

/-- Result of URL parsing: the components of a parsed URL that the router
inspects. Models the `url::Url` value produced by `Url::parse`. -/
structure Url where
  scheme : String
  host : Option String
  query : Option String
  deriving DecidableEq, Repr

/-- Characters allowed in a URI scheme after the first (RFC 3986). -/
def isSchemeChar (c : Char) : Bool :=
  c.isAlphanum || c = '+' || c = '-' || c = '.'

/-- Scans the remainder of a scheme up to the mandatory `:`.
Returns the characters after the colon, or `none` if the input is not of the
form `scheme ':' rest`. -/
def takeSchemeAux (acc : List Char) : List Char → Option (String × List Char)
  | [] => none
  | c :: cs =>
    if c = ':' then some (String.mk acc.reverse, cs)
    else if isSchemeChar c then takeSchemeAux (c :: acc) cs
    else none

/-- Splits a URI into its scheme and the remainder after the colon.
The scheme must be nonempty and start with an ASCII letter. -/
def takeScheme : List Char → Option (String × List Char)
  | [] => none
  | c :: cs => if c.isAlpha then takeSchemeAux [c] cs else none

/-- Checks whether a character terminates the authority segment. -/
def isAuthorityEnd (c : Char) : Bool :=
  c = '/' || c = '?' || c = '#'

/-- Extracts the query component from the part of the URI after the authority:
everything after the first `?`, or `none` when there is no `?`. -/
def extractQuery (cs : List Char) : Option String :=
  match cs.dropWhile (fun c => c ≠ '?') with
  | [] => none
  | _ :: rest => some (String.mk rest)

/-- Modelled from the spec: `url::Url::parse` at the interface the router uses.
A valid URI is `scheme ':' rest`; when `rest` starts with `//` the authority
(host) runs to the first `/`, `?` or `#`, otherwise there is no host. The query
is everything after the first `?` (fragments, introduced by `#`, are not part
of the query). Anything that does not fit this grammar is unparsable. -/
def urlParse (s : String) : Option Url :=
  match takeScheme s.data with
  | none => none
  | some (sch, rest) =>
    match rest with
    | '/' :: '/' :: r =>
      let auth := r.takeWhile (fun c => !(isAuthorityEnd c))
      let after := r.dropWhile (fun c => !(isAuthorityEnd c))
      some { scheme := sch
             host := some (String.mk auth)
             query := extractQuery (after.takeWhile (fun c => c ≠ '#')) }
    | _ =>
      some { scheme := sch
             host := none
             query := extractQuery (rest.takeWhile (fun c => c ≠ '#')) }

/-- Error type of the router and decoders, from `enum ParseError`. The spec
calls the first variant `UnsupportedCommand`. -/
inductive ParseError where
  | UnsupportedHost (s : String)
  | InvalidQuery (s : String)
  deriving DecidableEq, Repr

/-- Output of the router, from `struct Request`. -/
structure Request where
  host : String
  query : String
  deriving DecidableEq, Repr

instance {ε α : Type} [DecidableEq ε] [DecidableEq α] : DecidableEq (Except ε α)
  | .ok a, .ok b =>
    if h : a = b then isTrue (by rw [h]) else isFalse (by intro hh; cases hh; exact h rfl)
  | .ok _, .error _ => isFalse (by intro h; cases h)
  | .error _, .ok _ => isFalse (by intro h; cases h)
  | .error a, .error b =>
    if h : a = b then isTrue (by rw [h]) else isFalse (by intro hh; cases hh; exact h rfl)

namespace UrlParser

/-- Allow-list of commands, from `UrlParser::ALLOWED_METHODS`. -/
def ALLOWED_METHODS : List String := ["open", "import"]

/-- From `UrlParser::get_host`: the URL's host string, or the sentinel
`"no host"` when the URL has no host. -/
def get_host (url : Url) : String :=
  url.host.getD "no host"

/-- From `UrlParser::parse_raw_url`: parse the raw string as a URL, mapping
parse failure to `InvalidQuery` carrying the raw string. -/
def parse_raw_url (url_scheme : String) : Except ParseError Url :=
  match urlParse url_scheme with
  | some url => .ok url
  | none => .error (.InvalidQuery url_scheme)

/-- From `UrlParser::is_allowed_method`: case-sensitive membership in the
allow-list. -/
def is_allowed_method (host_str : String) : Bool :=
  ALLOWED_METHODS.contains host_str

/-- From `UrlParser::parse_query`: the URL's query, or `""` when absent. -/
def parse_query (url : Url) : String :=
  url.query.getD ""

/-- From `UrlParser::parse`: parse the raw URL, extract the host as the command
name, reject commands outside the allow-list, and return the request. -/
def parse (url_scheme : String) : Except ParseError Request :=
  match parse_raw_url url_scheme with
  | .error e => .error e
  | .ok url =>
    let host_str := get_host url
    if is_allowed_method host_str then
      .ok { host := host_str, query := parse_query url }
    else
      .error (.UnsupportedHost host_str)

end UrlParser

/-- Numeric value of a hexadecimal digit. -/
def hexVal (c : Char) : Option Nat :=
  if '0' ≤ c ∧ c ≤ '9' then some (c.toNat - '0'.toNat)
  else if 'a' ≤ c ∧ c ≤ 'f' then some (c.toNat - 'a'.toNat + 10)
  else if 'A' ≤ c ∧ c ≤ 'F' then some (c.toNat - 'A'.toNat + 10)
  else none

/-- Percent-decoding of form-encoded text: `%XY` becomes the character with hex
code `XY`, `+` becomes a space; a `%` not followed by two hex digits is a
structural failure. -/
def percentDecode : List Char → Option (List Char)
  | [] => some []
  | '%' :: a :: b :: rest =>
    match hexVal a, hexVal b, percentDecode rest with
    | some ha, some hb, some r => some (Char.ofNat (16 * ha + hb) :: r)
    | _, _, _ => none
  | '%' :: _ => none
  | '+' :: rest => (percentDecode rest).map (fun r => ' ' :: r)
  | c :: rest => (percentDecode rest).map (fun r => c :: r)

/-- Decodes one `key=value` segment: the key is everything before the first
`=`, the value everything after it (`""` when there is no `=`); both are
percent-decoded. -/
def parsePair (seg : List Char) : Option (String × String) :=
  let k := seg.takeWhile (fun c => c ≠ '=')
  let v := match seg.dropWhile (fun c => c ≠ '=') with
    | [] => []
    | _ :: r => r
  match percentDecode k, percentDecode v with
  | some kd, some vd => some (String.mk kd, String.mk vd)
  | _, _ => none

/-- Splits a character list on `&`. -/
def splitOnAmp : List Char → List (List Char)
  | [] => [[]]
  | '&' :: rest => [] :: splitOnAmp rest
  | c :: rest =>
    match splitOnAmp rest with
    | [] => [[c]]
    | seg :: segs => (c :: seg) :: segs

/-- Decodes every segment, failing if any segment fails. -/
def decodePairs : List (List Char) → Option (List (String × String))
  | [] => some []
  | seg :: rest =>
    match parsePair seg, decodePairs rest with
    | some p, some ps => some (p :: ps)
    | _, _ => none

/-- Modelled from the spec: the pair-list layer of `serde_qs::from_str`.
Interprets a query string as ampersand-delimited `key=value` pairs with
percent-decoding; empty segments are skipped, so the empty query yields the
empty list. -/
def parseQueryPairs (q : String) : Option (List (String × String)) :=
  decodePairs ((splitOnAmp q.data).filter (fun seg => !seg.isEmpty))

/-- Looks a key up in an association list: value of the first pair with that
key. -/
def lookupKey : List (String × String) → String → Option String
  | [], _ => none
  | p :: t, k => if p.1 == k then some p.2 else lookupKey t k

/-- Removes every pair with the given key, from `HashMap::remove`'s effect on
the map. -/
def removeKey (m : List (String × String)) (k : String) : List (String × String) :=
  m.filter (fun p => p.1 != k)

/-- Last-write-wins insertion: an existing binding keeps its position but takes
the new value, a new key is appended. -/
def insertLWW : List (String × String) → String → String → List (String × String)
  | [], k, v => [(k, v)]
  | p :: t, k, v => if p.1 == k then (k, v) :: t else p :: insertLWW t k v

/-- Builds the key/value map from the decoded pairs, duplicates resolved
last-write-wins. -/
def mapFromPairs (ps : List (String × String)) : List (String × String) :=
  ps.foldl (fun m p => insertLWW m p.1 p.2) []

/-- Modelled from the spec: `serde_qs::from_str` deserializing into a string
map — the decoded pairs collected with duplicate keys resolved
last-write-wins. -/
def qsToMap (q : String) : Option (List (String × String)) :=
  (parseQueryPairs q).map mapFromPairs

/-- Value of the last pair with the given key, `none` when the key never
occurs. -/
def lastVal : List (String × String) → String → Option String
  | [], _ => none
  | p :: ps, k =>
    match lastVal ps k with
    | some v => some v
    | none => if p.1 == k then some p.2 else none

example : urlParse "devpod://open?workspace=workspace" =
    some { scheme := "devpod", host := some "open", query := some "workspace=workspace" } := by
  decide

example : UrlParser.parse "devpod://open?workspace=workspace" =
    .ok { host := "open", query := "workspace=workspace" } := by decide

example : UrlParser.parse "devpod://import" = .ok { host := "import", query := "" } := by decide

example : UrlParser.parse "devpod://something" = .error (.UnsupportedHost "something") := by
  decide

example : UrlParser.parse "not-a-url" = .error (.InvalidQuery "not-a-url") := by decide

example : UrlParser.parse "devpod:opaque" = .error (.UnsupportedHost "no host") := by decide

/-- Payload of the `open` command, from `struct OpenWorkspaceMsg`. Wire names:
`workspace`, `provider`, `ide`, `source`. -/
structure OpenWorkspaceMsg where
  workspace_id : Option String
  provider_id : Option String
  ide : Option String
  source : Option String
  deriving DecidableEq, Repr

/-- From `OpenWorkspaceMsg::empty`. -/
def OpenWorkspaceMsg.empty : OpenWorkspaceMsg :=
  { workspace_id := none, provider_id := none, ide := none, source := none }

/-- From `OpenWorkspaceMsg::with_id`. -/
def OpenWorkspaceMsg.with_id (id : String) : OpenWorkspaceMsg :=
  { workspace_id := some id, provider_id := none, ide := none, source := none }

/-- Modelled from the spec: the derived deserialization of `OpenWorkspaceMsg`
from the query's key/value map. Every field is optional and read by its wire
name; keys other than the four wire names are ignored; an absent key yields
`none`, a present key yields `some` of its (possibly empty) value. -/
def openFromMap (m : List (String × String)) : OpenWorkspaceMsg :=
  { workspace_id := lookupKey m "workspace"
    provider_id := lookupKey m "provider"
    ide := lookupKey m "ide"
    source := lookupKey m "source" }

/-- The `open` instance of `CustomProtocol::parse`: `serde_qs::from_str` on the
request's query, every error mapped to `InvalidQuery` carrying the query. -/
def openDecode (q : String) : Except ParseError OpenWorkspaceMsg :=
  match qsToMap q with
  | none => .error (.InvalidQuery q)
  | some m => .ok (openFromMap m)

/-- Payload of the `import` command, from `struct ImportWorkspaceMsg`. -/
structure ImportWorkspaceMsg where
  workspace_id : String
  workspace_uid : String
  devpod_pro_host : String
  options : List (String × String)
  deriving DecidableEq, Repr

/-- From `impl Deserialize for ImportWorkspaceMsg`: deserialize the whole map,
then remove `workspace-id`, `workspace-uid` and `devpod-pro-host` in that
order, failing on the first missing key; the remaining map becomes
`options`. -/
def ImportWorkspaceMsg.deserialize (m : List (String × String)) : Option ImportWorkspaceMsg :=
  match lookupKey m "workspace-id" with
  | none => none
  | some wid =>
    let m₁ := removeKey m "workspace-id"
    match lookupKey m₁ "workspace-uid" with
    | none => none
    | some wuid =>
      let m₂ := removeKey m₁ "workspace-uid"
      match lookupKey m₂ "devpod-pro-host" with
      | none => none
      | some h =>
        some { workspace_id := wid
               workspace_uid := wuid
               devpod_pro_host := h
               options := removeKey m₂ "devpod-pro-host" }

/-- The `import` instance of `CustomProtocol::parse`: `serde_qs::from_str`
followed by `ImportWorkspaceMsg`'s deserializer, every error mapped to
`InvalidQuery` carrying the query. -/
def importDecode (q : String) : Except ParseError ImportWorkspaceMsg :=
  match qsToMap q with
  | none => .error (.InvalidQuery q)
  | some m =>
    match ImportWorkspaceMsg.deserialize m with
    | none => .error (.InvalidQuery q)
    | some msg => .ok msg

/-- Messages this core sends on the notification channel, from `UiMessage`
(the variants this core constructs). -/
inductive UiMessage where
  | OpenWorkspace (msg : OpenWorkspaceMsg)
  | ImportWorkspace (msg : ImportWorkspaceMsg)
  | CommandFailed (err : ParseError)
  | ShowToast (title body : String)
  deriving DecidableEq, Repr

/-- From `OpenHandler::handle`: the list of messages sent on the channel for
one invocation. `suppressErrors` is the platform flag modelling
`cfg(target_os = "windows")`, under which the error path sends nothing. -/
def OpenHandler.handle (suppressErrors : Bool)
    (msg : Except ParseError OpenWorkspaceMsg) : List UiMessage :=
  match msg with
  | .ok m => [UiMessage.OpenWorkspace m]
  | .error e => if suppressErrors then [] else [UiMessage.CommandFailed e]

/-- From `ImportHandler::handle`: the list of messages sent on the channel for
one invocation, with the same platform flag as `OpenHandler.handle`. -/
def ImportHandler.handle (suppressErrors : Bool)
    (msg : Except ParseError ImportWorkspaceMsg) : List UiMessage :=
  match msg with
  | .ok m => [UiMessage.ImportWorkspace m]
  | .error e => if suppressErrors then [] else [UiMessage.CommandFailed e]

example : openDecode "" = .ok OpenWorkspaceMsg.empty := by decide

example : openDecode "workspace=workspace" = .ok (OpenWorkspaceMsg.with_id "workspace") := by
  decide

example : openDecode "workspace=w&provider=p&source=https://github.com/test123&ide=vscode" =
    .ok { workspace_id := some "w", provider_id := some "p"
          ide := some "vscode", source := some "https://github.com/test123" } := by decide

example : importDecode "workspace-id=workspace&workspace-uid=uid&devpod-pro-host=devpod.pro&other=other" =
    .ok { workspace_id := "workspace", workspace_uid := "uid"
          devpod_pro_host := "devpod.pro", options := [("other", "other")] } := by decide

example : importDecode "workspace-uid=uid&devpod-pro-host=devpod.pro&other=other" =
    .error (.InvalidQuery "workspace-uid=uid&devpod-pro-host=devpod.pro&other=other") := by decide

example : importDecode "" = .error (.InvalidQuery "") := by decide

example : openDecode "a%2" = .error (.InvalidQuery "a%2") := by decide

example : qsToMap "a=1&b=2&a=3" = some [("a", "3"), ("b", "2")] := by decide

/-- The three required wire keys of the `import` command. -/
def isRequiredKey (k : String) : Bool :=
  k == "workspace-id" || k == "workspace-uid" || k == "devpod-pro-host"

/-- The four wire keys the `open` decoder recognizes. -/
def isKnownOpenKey (k : String) : Bool :=
  k == "workspace" || k == "provider" || k == "ide" || k == "source"

/-- Presence of a key in the query's key/value map. -/
def hasKey (m : List (String × String)) (k : String) : Bool :=
  (lookupKey m k).isSome

theorem strBeqT {a b : String} (h : a = b) : (a == b) = true := by simp [h]

theorem strBeqF {a b : String} (h : ¬a = b) : (a == b) = false := by simp [h]

theorem lookupKey_filter (f : String → Bool) (k : String) (hf : f k = true)
    (m : List (String × String)) :
    lookupKey (m.filter (fun p => f p.1)) k = lookupKey m k := by
  induction m with
  | nil => rfl
  | cons p t ih =>
    by_cases hpk : p.1 = k
    · have hfp : f p.1 = true := by rw [hpk]; exact hf
      rw [List.filter_cons, if_pos hfp]
      simp [lookupKey, strBeqT hpk]
    · have hbk := strBeqF hpk
      by_cases hfp : f p.1 = true
      · rw [List.filter_cons, if_pos hfp]
        simpa [lookupKey, hbk] using ih
      · rw [List.filter_cons, if_neg hfp, ih]
        simp [lookupKey, hbk]

theorem lookupKey_filter_none (f : String → Bool) (k : String) (hf : f k = false)
    (m : List (String × String)) :
    lookupKey (m.filter (fun p => f p.1)) k = none := by
  induction m with
  | nil => rfl
  | cons p t ih =>
    by_cases hfp : f p.1 = true
    · have hbk : (p.1 == k) = false := by
        refine strBeqF fun hpk => ?_
        rw [hpk, hf] at hfp
        cases hfp
      rw [List.filter_cons, if_pos hfp]
      simpa [lookupKey, hbk] using ih
    · rw [List.filter_cons, if_neg hfp]
      exact ih

theorem lookupKey_removeKey (m : List (String × String)) (k kr : String) (h : k ≠ kr) :
    lookupKey (removeKey m kr) k = lookupKey m k :=
  lookupKey_filter (fun x => x != kr) k (by simp [h]) m

theorem lookupKey_insertLWW (m : List (String × String)) (kn v k : String) :
    lookupKey (insertLWW m kn v) k = if k = kn then some v else lookupKey m k := by
  induction m with
  | nil =>
    by_cases hk : k = kn
    · subst hk
      simp [insertLWW, lookupKey]
    · simp [insertLWW, lookupKey, strBeqF (fun h => hk h.symm), hk]
  | cons p t ih =>
    by_cases hp : p.1 = kn
    · rw [insertLWW, if_pos (strBeqT hp)]
      by_cases hk : k = kn
      · subst hk
        simp [lookupKey]
      · simp [lookupKey, strBeqF (fun h => hk h.symm),
          strBeqF (fun h : p.1 = k => hk (h.symm.trans hp)), hk]
    · rw [insertLWW, if_neg (show ¬((p.1 == kn) = true) by simp [hp])]
      by_cases hpk : p.1 = k
      · have hknot : ¬k = kn := fun h => hp (hpk.trans h)
        simp [lookupKey, strBeqT hpk, hknot]
      · simp only [lookupKey, strBeqF hpk, Bool.false_eq_true, if_false]
        exact ih

theorem lookupKey_foldl_insertLWW (ps : List (String × String))
    (acc : List (String × String)) (k : String) :
    lookupKey (ps.foldl (fun m p => insertLWW m p.1 p.2) acc) k =
      match lastVal ps k with
      | some v => some v
      | none => lookupKey acc k := by
  induction ps generalizing acc with
  | nil => simp [lastVal]
  | cons p t ih =>
    rw [List.foldl_cons, ih, lookupKey_insertLWW]
    cases hl : lastVal t k with
    | some v => simp [lastVal, hl]
    | none =>
      by_cases hpk : p.1 = k
      · subst hpk
        simp [lastVal, hl]
      · simp [lastVal, hl, strBeqF hpk, show ¬k = p.1 from fun h => hpk h.symm]

theorem lookupKey_mapFromPairs (ps : List (String × String)) (k : String) :
    lookupKey (mapFromPairs ps) k = lastVal ps k := by
  rw [mapFromPairs, lookupKey_foldl_insertLWW]
  cases lastVal ps k <;> rfl

theorem removeKey_cons_eq {p : String × String} {t : List (String × String)} {k : String}
    (h : p.1 = k) : removeKey (p :: t) k = removeKey t k := by
  simp [removeKey, List.filter_cons, bne, strBeqT h]

theorem removeKey_cons_ne {p : String × String} {t : List (String × String)} {k : String}
    (h : ¬p.1 = k) : removeKey (p :: t) k = p :: removeKey t k := by
  simp [removeKey, List.filter_cons, bne, strBeqF h]

theorem removeRequired_eq_filter (m : List (String × String)) :
    removeKey (removeKey (removeKey m "workspace-id") "workspace-uid") "devpod-pro-host"
      = m.filter (fun p => !(isRequiredKey p.1)) := by
  induction m with
  | nil => rfl
  | cons p t ih =>
    by_cases h1 : p.1 = "workspace-id"
    · rw [removeKey_cons_eq h1, List.filter_cons,
        if_neg (by simp [isRequiredKey, strBeqT h1])]
      exact ih
    · rw [removeKey_cons_ne h1]
      by_cases h2 : p.1 = "workspace-uid"
      · rw [removeKey_cons_eq h2, List.filter_cons,
          if_neg (by simp [isRequiredKey, strBeqT h2])]
        exact ih
      · rw [removeKey_cons_ne h2]
        by_cases h3 : p.1 = "devpod-pro-host"
        · rw [removeKey_cons_eq h3, List.filter_cons,
            if_neg (by simp [isRequiredKey, strBeqT h3])]
          exact ih
        · rw [removeKey_cons_ne h3, List.filter_cons,
            if_pos (by simp [isRequiredKey, strBeqF h1, strBeqF h2, strBeqF h3]), ih]

theorem deserialize_eq (m : List (String × String)) :
    ImportWorkspaceMsg.deserialize m =
      match lookupKey m "workspace-id", lookupKey m "workspace-uid",
          lookupKey m "devpod-pro-host" with
      | some wid, some wuid, some h =>
        some { workspace_id := wid, workspace_uid := wuid, devpod_pro_host := h
               options := removeKey (removeKey (removeKey m "workspace-id") "workspace-uid")
                 "devpod-pro-host" }
      | _, _, _ => none := by
  have hr2 : lookupKey (removeKey m "workspace-id") "workspace-uid"
      = lookupKey m "workspace-uid" :=
    lookupKey_removeKey _ _ _ (by decide)
  have hr3 : lookupKey (removeKey (removeKey m "workspace-id") "workspace-uid") "devpod-pro-host"
      = lookupKey m "devpod-pro-host" :=
    (lookupKey_removeKey _ _ _ (by decide)).trans (lookupKey_removeKey _ _ _ (by decide))
  cases h1 : lookupKey m "workspace-id" with
  | none => simp [ImportWorkspaceMsg.deserialize, h1]
  | some wid =>
    cases h2 : lookupKey m "workspace-uid" with
    | none => simp [ImportWorkspaceMsg.deserialize, h1, hr2, h2]
    | some wuid =>
      cases h3 : lookupKey m "devpod-pro-host" with
      | none => simp [ImportWorkspaceMsg.deserialize, h1, hr2, h2, hr3, h3]
      | some hh => simp [ImportWorkspaceMsg.deserialize, h1, hr2, h2, hr3, h3]

/-- C3: for every string that is a valid URI whose authority segment is an
allow-listed command, `UrlParser.parse` succeeds and returns a `Request` whose
`host` field is exactly the authority segment and whose `query` field is
exactly the URI's query, or the empty string when the URI has no query. -/
theorem router_parse_allowed (s : String) (u : Url) (h : String)
    (hu : urlParse s = some u) (hh : u.host = some h)
    (ha : UrlParser.is_allowed_method h = true) :
    UrlParser.parse s = .ok { host := h, query := u.query.getD "" } := by
  simp [UrlParser.parse, UrlParser.parse_raw_url, hu, UrlParser.get_host, hh, ha,
    UrlParser.parse_query]

theorem router_parse_allowed_witness :
    UrlParser.parse "devpod://open?workspace=workspace" =
      .ok { host := "open", query := "workspace=workspace" } := by
  have := router_parse_allowed "devpod://open?workspace=workspace"
    { scheme := "devpod", host := some "open", query := some "workspace=workspace" } "open"
    (by decide) rfl (by decide)
  simpa using this

/-- C4: for every URI whose authority segment is not in the allow-list under
case-sensitive exact match, `UrlParser.parse` yields `UnsupportedHost` (called
`UnsupportedCommand` in the spec) carrying the attempted command name; when the
authority segment is absent the command name is the sentinel `"no host"`,
which fails the allow-list check and routes to `UnsupportedHost "no host"`. -/
theorem router_parse_unsupported (s : String) (u : Url) (hu : urlParse s = some u) :
    (UrlParser.is_allowed_method (UrlParser.get_host u) = false →
      UrlParser.parse s = .error (.UnsupportedHost (UrlParser.get_host u))) ∧
    (u.host = none → UrlParser.parse s = .error (.UnsupportedHost "no host")) := by
  constructor
  · intro hna
    simp [UrlParser.parse, UrlParser.parse_raw_url, hu, hna]
  · intro hn
    have hgh : UrlParser.get_host u = "no host" := by simp [UrlParser.get_host, hn]
    have hna : UrlParser.is_allowed_method "no host" = false := by decide
    simp [UrlParser.parse, UrlParser.parse_raw_url, hu, hgh, hna]

theorem router_parse_unsupported_witness :
    UrlParser.parse "devpod://something" = .error (.UnsupportedHost "something") ∧
    UrlParser.parse "devpod:opaque" = .error (.UnsupportedHost "no host") := by
  constructor
  · exact (router_parse_unsupported "devpod://something"
      { scheme := "devpod", host := some "something", query := none } (by decide)).1 (by decide)
  · exact (router_parse_unsupported "devpod:opaque"
      { scheme := "devpod", host := none, query := none } (by decide)).2 rfl

/-- C5: for every string that is not parsable per the URI grammar,
`UrlParser.parse` fails with `InvalidQuery` whose payload is exactly the raw
input string. -/
theorem router_parse_invalid (s : String) (hu : urlParse s = none) :
    UrlParser.parse s = .error (.InvalidQuery s) := by
  simp [UrlParser.parse, UrlParser.parse_raw_url, hu]

theorem router_parse_invalid_witness :
    UrlParser.parse "not-a-url" = .error (.InvalidQuery "not-a-url") :=
  router_parse_invalid "not-a-url" (by decide)

/-- C10: `UrlParser.parse` never inspects the URI's scheme: two valid URIs
that parse to the same host and query — in particular URIs differing only in
their scheme — yield the same router result, so URIs whose scheme differs from
the registered application scheme are accepted by the router. -/
theorem router_scheme_irrelevant (s₁ s₂ : String) (u₁ u₂ : Url)
    (h₁ : urlParse s₁ = some u₁) (h₂ : urlParse s₂ = some u₂)
    (hh : u₁.host = u₂.host) (hq : u₁.query = u₂.query) :
    UrlParser.parse s₁ = UrlParser.parse s₂ := by
  simp only [UrlParser.parse, UrlParser.parse_raw_url, h₁, h₂, UrlParser.get_host,
    UrlParser.parse_query, hh, hq]

theorem router_scheme_irrelevant_witness :
    UrlParser.parse "devpod://open?x=1" = UrlParser.parse "other://open?x=1" ∧
    UrlParser.parse "other://open?x=1" = .ok { host := "open", query := "x=1" } := by
  constructor
  · exact router_scheme_irrelevant "devpod://open?x=1" "other://open?x=1"
      { scheme := "devpod", host := some "open", query := some "x=1" }
      { scheme := "other", host := some "open", query := some "x=1" }
      (by decide) (by decide) rfl rfl
  · decide

/-- C6: decoding the empty query string with the `open` decoder succeeds and
yields an `OpenWorkspaceMsg` with all four fields absent; it is never an
error. -/
theorem open_decode_empty :
    openDecode "" =
      .ok { workspace_id := none, provider_id := none, ide := none, source := none } := by
  decide

/-- C8: for every input string, the router and both decoders are total and
every failure is a value of the `ParseError` union — `UnsupportedHost` (the
spec's `UnsupportedCommand`) or `InvalidQuery` — never a panic; the decoders'
failures all carry the original query. -/
theorem parse_never_panics (s q : String) :
    ((∃ r, UrlParser.parse s = .ok r) ∨
      (∃ t, UrlParser.parse s = .error (.UnsupportedHost t)) ∨
      (∃ t, UrlParser.parse s = .error (.InvalidQuery t))) ∧
    ((∃ msg, openDecode q = .ok msg) ∨ openDecode q = .error (.InvalidQuery q)) ∧
    ((∃ msg, importDecode q = .ok msg) ∨ importDecode q = .error (.InvalidQuery q)) := by
  refine ⟨?_, ?_, ?_⟩
  · cases h : UrlParser.parse s with
    | ok r => exact .inl ⟨r, rfl⟩
    | error e =>
      cases e with
      | UnsupportedHost t => exact .inr (.inl ⟨t, rfl⟩)
      | InvalidQuery t => exact .inr (.inr ⟨t, rfl⟩)
  · cases h : qsToMap q with
    | none => exact .inr (by simp [openDecode, h])
    | some m => exact .inl ⟨openFromMap m, by simp [openDecode, h]⟩
  · cases h : qsToMap q with
    | none => exact .inr (by simp [importDecode, h])
    | some m =>
      cases hd : ImportWorkspaceMsg.deserialize m with
      | none => exact .inr (by simp [importDecode, h, hd])
      | some msg => exact .inl ⟨msg, by simp [importDecode, h, hd]⟩

/-- C9: each handler invocation forwards exactly one outcome message — one
`OpenWorkspace`/`ImportWorkspace` on success (with the decoded command passed
through unchanged) and one `CommandFailed` carrying the error on failure —
except that with the platform suppression flag set the failure path sends
nothing; a handler never sends more than one message per invocation. -/
theorem handlers_single_outcome (suppress : Bool)
    (ro : Except ParseError OpenWorkspaceMsg) (ri : Except ParseError ImportWorkspaceMsg) :
    ((OpenHandler.handle suppress ro).length ≤ 1 ∧
      (ImportHandler.handle suppress ri).length ≤ 1) ∧
    (∀ m, ro = .ok m → OpenHandler.handle suppress ro = [UiMessage.OpenWorkspace m]) ∧
    (∀ m, ri = .ok m → ImportHandler.handle suppress ri = [UiMessage.ImportWorkspace m]) ∧
    (∀ e, ro = .error e →
      OpenHandler.handle suppress ro = if suppress then [] else [UiMessage.CommandFailed e]) ∧
    (∀ e, ri = .error e →
      ImportHandler.handle suppress ri = if suppress then [] else [UiMessage.CommandFailed e]) := by
  refine ⟨⟨?_, ?_⟩, ?_, ?_, ?_, ?_⟩
  · cases ro with
    | ok m => simp [OpenHandler.handle]
    | error e => cases suppress <;> simp [OpenHandler.handle]
  · cases ri with
    | ok m => simp [ImportHandler.handle]
    | error e => cases suppress <;> simp [ImportHandler.handle]
  · intro m hm
    subst hm
    simp [OpenHandler.handle]
  · intro m hm
    subst hm
    simp [ImportHandler.handle]
  · intro e he
    subst he
    simp [OpenHandler.handle]
  · intro e he
    subst he
    simp [ImportHandler.handle]

theorem handlers_single_outcome_witness :
    OpenHandler.handle false (.ok OpenWorkspaceMsg.empty) =
      [UiMessage.OpenWorkspace OpenWorkspaceMsg.empty] ∧
    ImportHandler.handle true (.error (.InvalidQuery "q")) = [] := by
  constructor
  · exact (handlers_single_outcome false (.ok OpenWorkspaceMsg.empty)
      (.error (.InvalidQuery "q"))).2.1 OpenWorkspaceMsg.empty rfl
  · have := (handlers_single_outcome true (.ok OpenWorkspaceMsg.empty)
      (.error (.InvalidQuery "q"))).2.2.2.2 (.InvalidQuery "q") rfl
    simpa using this

/-- C1: import decoding succeeds if and only if all three required wire keys
(`workspace-id`, `workspace-uid`, `devpod-pro-host`) are present in the
query's key/value map; for every query whose map misses any one of the three,
decoding fails with `InvalidQuery` carrying the original query string. -/
theorem import_decode_iff_required_keys (q : String) (m : List (String × String))
    (hq : qsToMap q = some m) :
    ((∃ msg, importDecode q = .ok msg) ↔
      (hasKey m "workspace-id" = true ∧ hasKey m "workspace-uid" = true ∧
        hasKey m "devpod-pro-host" = true)) ∧
    (¬(hasKey m "workspace-id" = true ∧ hasKey m "workspace-uid" = true ∧
        hasKey m "devpod-pro-host" = true) →
      importDecode q = .error (.InvalidQuery q)) := by
  cases h1 : lookupKey m "workspace-id" with
  | none =>
    have hd : importDecode q = .error (.InvalidQuery q) := by
      simp [importDecode, hq, deserialize_eq, h1]
    constructor
    · constructor
      · rintro ⟨msg, hm⟩
        rw [hd] at hm
        cases hm
      · rintro ⟨hk1, _, _⟩
        exact absurd hk1 (by simp [hasKey, h1])
    · intro _
      exact hd
  | some wid =>
    cases h2 : lookupKey m "workspace-uid" with
    | none =>
      have hd : importDecode q = .error (.InvalidQuery q) := by
        simp [importDecode, hq, deserialize_eq, h1, h2]
      constructor
      · constructor
        · rintro ⟨msg, hm⟩
          rw [hd] at hm
          cases hm
        · rintro ⟨_, hk2, _⟩
          exact absurd hk2 (by simp [hasKey, h2])
      · intro _
        exact hd
    | some wuid =>
      cases h3 : lookupKey m "devpod-pro-host" with
      | none =>
        have hd : importDecode q = .error (.InvalidQuery q) := by
          simp [importDecode, hq, deserialize_eq, h1, h2, h3]
        constructor
        · constructor
          · rintro ⟨msg, hm⟩
            rw [hd] at hm
            cases hm
          · rintro ⟨_, _, hk3⟩
            exact absurd hk3 (by simp [hasKey, h3])
        · intro _
          exact hd
      | some hh =>
        have hd : importDecode q =
            .ok { workspace_id := wid, workspace_uid := wuid, devpod_pro_host := hh
                  options := removeKey (removeKey (removeKey m "workspace-id") "workspace-uid")
                    "devpod-pro-host" } := by
          simp [importDecode, hq, deserialize_eq, h1, h2, h3]
        constructor
        · constructor
          · intro _
            exact ⟨by simp [hasKey, h1], by simp [hasKey, h2], by simp [hasKey, h3]⟩
          · intro _
            exact ⟨_, hd⟩
        · intro hcon
          exact absurd ⟨by simp [hasKey, h1], by simp [hasKey, h2], by simp [hasKey, h3]⟩ hcon

theorem import_decode_iff_required_keys_witness :
    importDecode "workspace-uid=uid&devpod-pro-host=h" =
      .error (.InvalidQuery "workspace-uid=uid&devpod-pro-host=h") ∧
    (∃ msg, importDecode "workspace-id=a&workspace-uid=b&devpod-pro-host=c" = .ok msg) := by
  constructor
  · exact (import_decode_iff_required_keys "workspace-uid=uid&devpod-pro-host=h"
      [("workspace-uid", "uid"), ("devpod-pro-host", "h")] (by decide)).2 (by decide)
  · exact (import_decode_iff_required_keys "workspace-id=a&workspace-uid=b&devpod-pro-host=c"
      [("workspace-id", "a"), ("workspace-uid", "b"), ("devpod-pro-host", "c")]
      (by decide)).1.mpr (by decide)

/-- C2: for every query with the three required import keys present plus any
extra key/value pairs, the decoded `options` map is exactly the extra pairs of
the query's key/value map, kept in original relative order with duplicate keys
resolved last-write-wins (`lastVal` is the value of the last pair with a key),
and contains none of the three required keys. -/
theorem import_extra_options_residual (q : String) (ps m : List (String × String))
    (msg : ImportWorkspaceMsg) (hps : parseQueryPairs q = some ps)
    (hq : qsToMap q = some m) (hok : importDecode q = .ok msg) :
    msg.options = m.filter (fun p => !(isRequiredKey p.1)) ∧
    (∀ k v, (k, v) ∈ msg.options ↔ ((k, v) ∈ m ∧ isRequiredKey k = false)) ∧
    (∀ k, isRequiredKey k = true → lookupKey msg.options k = none) ∧
    (∀ k, isRequiredKey k = false → lookupKey msg.options k = lastVal ps k) := by
  have hm : m = mapFromPairs ps := by
    rw [qsToMap, hps] at hq
    exact (Option.some.inj hq).symm
  simp only [importDecode, hq, deserialize_eq] at hok
  cases h1 : lookupKey m "workspace-id" with
  | none =>
    rw [h1] at hok
    simp at hok
  | some wid =>
    rw [h1] at hok
    cases h2 : lookupKey m "workspace-uid" with
    | none =>
      rw [h2] at hok
      simp at hok
    | some wuid =>
      rw [h2] at hok
      cases h3 : lookupKey m "devpod-pro-host" with
      | none =>
        rw [h3] at hok
        simp at hok
      | some hh =>
        rw [h3] at hok
        simp only [Except.ok.injEq] at hok
        have hopt : msg.options = m.filter (fun p => !(isRequiredKey p.1)) := by
          rw [← hok]
          exact removeRequired_eq_filter m
        refine ⟨hopt, ?_, ?_, ?_⟩
        · intro k v
          rw [hopt]
          simp [List.mem_filter]
        · intro k hk
          rw [hopt]
          exact lookupKey_filter_none (fun x => !(isRequiredKey x)) k (by simp [hk]) m
        · intro k hk
          rw [hopt, lookupKey_filter (fun x => !(isRequiredKey x)) k (by simp [hk]) m, hm,
            lookupKey_mapFromPairs]

theorem import_extra_options_residual_witness :
    ({ workspace_id := "w", workspace_uid := "u", devpod_pro_host := "h"
       options := [("other", "2")] } : ImportWorkspaceMsg).options =
      [(("workspace-id" : String), ("w" : String)), ("workspace-uid", "u"),
        ("devpod-pro-host", "h"), ("other", "2")].filter (fun p => !(isRequiredKey p.1)) :=
  (import_extra_options_residual
    "workspace-id=w&workspace-uid=u&devpod-pro-host=h&other=1&other=2"
    [("workspace-id", "w"), ("workspace-uid", "u"), ("devpod-pro-host", "h"),
      ("other", "1"), ("other", "2")]
    [("workspace-id", "w"), ("workspace-uid", "u"), ("devpod-pro-host", "h"), ("other", "2")]
    { workspace_id := "w", workspace_uid := "u", devpod_pro_host := "h"
      options := [("other", "2")] }
    (by decide) (by decide) (by decide)).1

/-- C7: for every query accepted by the `open` decoder, unknown keys are
silently ignored — decoding succeeds and the result only depends on the pairs
whose key is one of the four recognized wire names — and a recognized key
present with an empty value decodes to the field holding `some ""`, not to
absence. -/
theorem open_decode_unknown_keys (q : String) (m : List (String × String))
    (hq : qsToMap q = some m) :
    openDecode q = .ok (openFromMap m) ∧
    openFromMap m = openFromMap (m.filter (fun p => isKnownOpenKey p.1)) ∧
    (lookupKey m "workspace" = some "" → (openFromMap m).workspace_id = some "") ∧
    (lookupKey m "provider" = some "" → (openFromMap m).provider_id = some "") ∧
    (lookupKey m "ide" = some "" → (openFromMap m).ide = some "") ∧
    (lookupKey m "source" = some "" → (openFromMap m).source = some "") := by
  have h1 := lookupKey_filter isKnownOpenKey "workspace" (by decide) m
  have h2 := lookupKey_filter isKnownOpenKey "provider" (by decide) m
  have h3 := lookupKey_filter isKnownOpenKey "ide" (by decide) m
  have h4 := lookupKey_filter isKnownOpenKey "source" (by decide) m
  refine ⟨by simp [openDecode, hq], by simp [openFromMap, h1, h2, h3, h4],
    fun h => h, fun h => h, fun h => h, fun h => h⟩

theorem open_decode_unknown_keys_witness :
    openDecode "unknown=zzz&ide=" = .ok (openFromMap [("unknown", "zzz"), ("ide", "")]) ∧
    (openFromMap [("unknown", "zzz"), ("ide", "")]).ide = some "" := by
  constructor
  · exact (open_decode_unknown_keys "unknown=zzz&ide="
      [("unknown", "zzz"), ("ide", "")] (by decide)).1
  · exact (open_decode_unknown_keys "unknown=zzz&ide="
      [("unknown", "zzz"), ("ide", "")] (by decide)).2.2.2.2.1 (by decide)
